import Mathlib

/-!
Verification development for the NEJM image-challenge tool collection
(`batch_download.py`, `nejm_downloader.py`, `json2latex.py`,
`nejm_image_caption.py`).  The Python sources are shallowly embedded:
dictionaries become association lists, JSON values become an inductive
type, file contents and network downloads become explicit parameters,
and machine floats are modelled by exact rationals.
-/

set_option maxRecDepth 4000

namespace NEJM

/-- JSON values as loaded by `json.load`: null, booleans, integers,
strings, arrays and objects (objects as association lists in key order;
the persisted files of this system never use duplicate keys). -/
inductive JValue where
  | null
  | jbool (b : Bool)
  | jnum (n : Int)
  | jstr (s : String)
  | jarr (xs : List JValue)
  | jobj (fields : List (String × JValue))

/-- A Python dict with string keys and JSON values, in insertion order. -/
abbrev Jobj := List (String × JValue)

/-- Python truthiness of a loaded JSON value: `None`, `False`, `0`, `""`,
`[]` and `{}` are falsy, everything else truthy.  This is the test
performed by `if existing.get("answer"):` and `if existing.get("image"):`
in `batch_download.py` and by the skip test in `batch_download`. -/
def JValue.truthy : JValue → Bool
  | .null => false
  | .jbool b => b
  | .jnum n => n != 0
  | .jstr s => s != ""
  | .jarr xs => !xs.isEmpty
  | .jobj fs => !fs.isEmpty

/-- Python `d.get(k)` on a dict: the value of the first binding of `k`,
or `None` when the key is absent. -/
def Jobj.get (o : Jobj) (k : String) : JValue :=
  (List.lookup k o).getD .null

/-- Python `k in d` on a dict: key membership. -/
def Jobj.hasKey (o : Jobj) (k : String) : Bool :=
  (List.lookup k o).isSome

/-- Python `d[k] = v` on a dict: replace the value of an existing key in
place, otherwise append the new binding at the end. -/
def Jobj.set (o : Jobj) (k : String) (v : JValue) : Jobj :=
  match o with
  | [] => [(k, v)]
  | (k', v') :: rest => if k' = k then (k, v) :: rest else (k', v') :: Jobj.set rest k v

/-- Python `str(x)` for the JSON values that can appear in an `id` field
(used by `str(item.get("id"))` / `str(downloaded.get("id"))`). -/
def pyStr : JValue → String
  | .null => "None"
  | .jbool true => "True"
  | .jbool false => "False"
  | .jnum n => toString n
  | .jstr s => s
  | .jarr _ => "<list>"
  | .jobj _ => "<dict>"

/-- Exceptions relevant to the embedded fragments. -/
inductive PyErr where
  | jsonDecodeError
  | fileNotFoundError
  | attributeError
  deriving Repr, DecidableEq, Inhabited

/-- Observable content of a persisted JSON file: absent, present but not
parseable as JSON, or parsed to a JSON value. -/
inductive FileContent where
  | missing
  | malformed
  | parsed (v : JValue)

/-! ### batch_download.py -/

/-- Embeds `generate_date_range` (batch_download.py lines 39-57) with
dates as integer day numbers (all dates handled by the tool are
midnight datetimes, and `timedelta(weeks=1)` is exactly 7 days):
collect `start, start+7, start+14, ...` while the current date is at
most `end`. -/
def generate_date_range (start_date end_date : Int) : List Int :=
  if start_date ≤ end_date then
    start_date :: generate_date_range (start_date + 7) end_date
  else
    []
termination_by (end_date - start_date + 1).toNat
decreasing_by omega

/-- Dict update `lookup[item_id] = item` for the string-keyed lookup of
`load_existing_data`, with the same replace-in-place-or-append
semantics as `Jobj.set`. -/
def dictSet : List (String × Jobj) → String → Jobj → List (String × Jobj)
  | [], k, v => [(k, v)]
  | (k', v') :: rest, k, v => if k' = k then (k, v) :: rest else (k', v') :: dictSet rest k v

/-- Embeds the lookup-building loop of `load_existing_data` (lines
131-135): `lookup[str(item.get("id"))] = item` for each item of the
list; `item.get("id")` raises `AttributeError` on a non-dict item, and
that exception is not caught by the surrounding handler. -/
def build_lookup : List JValue → List (String × Jobj) → Except PyErr (List (String × Jobj))
  | [], lookup => .ok lookup
  | item :: rest, lookup =>
    match item with
    | .jobj fields => build_lookup rest (dictSet lookup (pyStr (Jobj.get fields "id")) fields)
    | _ => .error .attributeError

/-- Embeds `load_existing_data` (batch_download.py lines 111-139): a
missing file yields the empty collection, a JSON parse failure is caught
and yields the empty collection, a non-list top level yields the empty
collection; otherwise a lookup keyed by `str(item.get("id"))` is built
(raising `AttributeError` on non-dict items) and returned together with
the raw list. -/
def load_existing_data : FileContent → Except PyErr (List (String × Jobj) × List JValue)
  | .missing => .ok ([], [])
  | .malformed => .ok ([], [])
  | .parsed v =>
    match v with
    | .jarr items =>
      match build_lookup items [] with
      | .ok lookup => .ok (lookup, items)
      | .error e => .error e
    | _ => .ok ([], [])

/-- Embeds `merge_challenge_data` (batch_download.py lines 142-164):
look the id of the downloaded record up in the existing lookup; when the
`answer` (resp. `image`) of the existing record is truthy, overwrite
that field of the downloaded record with it. -/
def merge_challenge_data (downloaded : Jobj) (existing_data : List (String × Jobj)) : Jobj :=
  let challenge_id := pyStr (Jobj.get downloaded "id")
  match List.lookup challenge_id existing_data with
  | none => downloaded
  | some existing =>
    let d1 := if (Jobj.get existing "answer").truthy then
        Jobj.set downloaded "answer" (Jobj.get existing "answer")
      else downloaded
    if (Jobj.get existing "image").truthy then
      Jobj.set d1 "image" (Jobj.get existing "image")
    else d1

/-- Embeds the skip filter of `batch_download` (lines 191-202): an id is
queued for download unless the existing lookup has it with a truthy
`image` field. -/
def to_download (challenge_ids : List String) (lookup : List (String × Jobj)) : List String :=
  challenge_ids.filter fun challenge_id =>
    match List.lookup challenge_id lookup with
    | some existing => !(Jobj.get existing "image").truthy
    | none => true

/-- Embeds the download loop of `batch_download` (lines 205-213): each
queued id is passed to `download_challenge` (modelled by the oracle
`dl`, `none` meaning the download failed or was invalid) and successful
downloads are merged with the existing lookup. -/
def new_challenges (challenge_ids : List String) (lookup : List (String × Jobj))
    (dl : String → Option Jobj) : List Jobj :=
  (to_download challenge_ids lookup).filterMap fun challenge_id =>
    (dl challenge_id).map fun downloaded => merge_challenge_data downloaded lookup

/-- Embeds `batch_download` (batch_download.py lines 167-228) up to the
file write: the result is `none` when the function returns without
opening the output file (no dates, or no new challenges) and
`some list` when it writes `existing_data_list + new_challenges`.
Exceptions escaping `load_existing_data` propagate. -/
def batch_download (challenge_ids : List String) (existing_file : FileContent)
    (dl : String → Option Jobj) : Except PyErr (Option (List JValue)) :=
  if challenge_ids.isEmpty then .ok none
  else
    match load_existing_data existing_file with
    | .error e => .error e
    | .ok (lookup, existing_list) =>
      let nc := new_challenges challenge_ids lookup dl
      if nc.isEmpty then .ok none
      else .ok (some (existing_list ++ nc.map JValue.jobj))

/-! ### String primitives

The Python string methods used by the sources are embedded as
executable functions on `List Char` (wrapped back into `String`), so
that concrete runs reduce inside the kernel.  Whitespace is the ASCII
whitespace recognised by `Char.isWhitespace`; the marker strings the
sources compare against are all ASCII. -/

/-- Python `str.lower()` (ASCII case folding, which covers every
comparison string appearing in the sources). -/
def strLower (s : String) : String :=
  ⟨s.data.map Char.toLower⟩

/-- Python `str.strip()`: remove leading and trailing whitespace. -/
def strStrip (s : String) : String :=
  ⟨((s.data.dropWhile Char.isWhitespace).reverse.dropWhile Char.isWhitespace).reverse⟩

/-- Tests whether `pat` occurs at the head of `text`. -/
def chAtHead : List Char → List Char → Bool
  | [], _ => true
  | _ :: _, [] => false
  | p :: ps, c :: cs => p = c && chAtHead ps cs

/-- Tests whether `pat` occurs anywhere in `text` (Python `pat in text`). -/
def chContains (text pat : List Char) : Bool :=
  match text with
  | [] => pat.isEmpty
  | _ :: rest => chAtHead pat text || chContains rest pat

/-- Python `pat in s` on strings. -/
def strContains (s pat : String) : Bool :=
  chContains s.data pat.data

/-- Python `s.endswith(pat)` for a single-character suffix. -/
def strEndsWithChar (s : String) (c : Char) : Bool :=
  s.data.getLast? = some c

/-- Splits a character list at every occurrence of the separator
character (Python `str.split(sep)` for a one-character separator, and
`str.splitlines()` for text containing only `\n` line breaks). -/
def chSplitOn (sep : Char) : List Char → List (List Char)
  | [] => [[]]
  | c :: rest =>
    let tail := chSplitOn sep rest
    if c = sep then [] :: tail
    else
      match tail with
      | [] => [[c]]
      | t :: ts => (c :: t) :: ts

/-- Python `sep.join(parts)`. -/
def chJoin (sep : List Char) : List (List Char) → List Char
  | [] => []
  | [p] => p
  | p :: ps => p ++ sep ++ chJoin sep ps

/-- Recursion core of `chReplace`; the fuel argument only bounds the
recursion depth (one unit per character of the text) so that the
function is structurally recursive and computes inside the kernel. -/
def chReplaceAux (pat rep : List Char) : Nat → List Char → List Char
  | 0, text => text
  | fuel + 1, text =>
    match text with
    | [] => []
    | c :: rest =>
      if chAtHead pat text then rep ++ chReplaceAux pat rep fuel (text.drop pat.length)
      else c :: chReplaceAux pat rep fuel rest

/-- Non-overlapping left-to-right replacement of `pat` by `rep`
(Python `str.replace`); an empty pattern leaves the text unchanged
(the sources never replace an empty pattern). -/
def chReplace (text pat rep : List Char) : List Char :=
  if pat.isEmpty then text else chReplaceAux pat rep text.length text

/-- Python `s.replace(pat, rep)` on strings. -/
def strReplace (s pat rep : String) : String :=
  ⟨chReplace s.data pat.data rep.data⟩

/-- Splits text at every maximal whitespace run containing at least two
newline characters.  This is `re.split(r"\n\s*\n+", text)` up to
leading/trailing whitespace of the produced pieces, which the caller
strips away: the regex consumes from the first to the last newline of
such a run, and the remaining whitespace of the run is stripped from
the adjacent pieces by the `p.strip()` of the caller. -/
def chSplitParasAux : Nat → List Char → List (List Char)
  | 0, _ => [[]]
  | _ + 1, [] => [[]]
  | fuel + 1, c :: rest =>
    if c.isWhitespace then
      let run := (c :: rest).takeWhile Char.isWhitespace
      let rest' := (c :: rest).dropWhile Char.isWhitespace
      if 2 ≤ run.count '\n' then
        [] :: chSplitParasAux fuel rest'
      else
        match chSplitParasAux fuel rest' with
        | [] => [run]
        | t :: ts => (run ++ t) :: ts
    else
      match chSplitParasAux fuel rest with
      | [] => [[c]]
      | t :: ts => (c :: t) :: ts

/-- Wrapper supplying the fuel (one unit per character, never exhausted
since each step of `chSplitParasAux` consumes at least one character). -/
def chSplitParas (cs : List Char) : List (List Char) :=
  chSplitParasAux cs.length cs

/-! ### nejm_downloader.py — Strategy A (HTML) -/

/-- Option labels `['A', 'B', 'C', 'D', 'E', 'F']`
(nejm_downloader.py line 132 and line 216). -/
def option_keys : List String := ["A", "B", "C", "D", "E", "F"]

/-- Observable shape of a fetched challenge page, as seen through the
BeautifulSoup queries of `_extract_question_and_options_html`:
whether the `image-challenge-qa_content` and `image-challenge-qa_right`
divs are found, the text of the `image-challenge-qa_question` div when
present, the texts of the class-bearing direct child divs of the right
area (for the positional fallback), and the texts of the
`radio--primary-label-text` spans when the
`image-challenge-qa_answers` container is found. -/
structure ChallengePage where
  qa_content : Bool
  qa_right : Bool
  question_div : Option String
  classed_divs : List String
  answers_div : Option (List String)

/-- Embeds the option loop of `_extract_question_and_options_html`
(nejm_downloader.py lines 129-139): enumerate the spans, stop at span
index 6, keep a stripped span text when it is nonempty, longer than 5
characters and not already among the collected option values, storing
it under the label `option_keys[idx]` of the span index. -/
def extract_options_spans : List String → Nat → List (String × String) → List (String × String)
  | [], _, options => options
  | span :: rest, idx, options =>
    if 6 ≤ idx then options
    else
      let option_text := strStrip span
      if option_text ≠ "" ∧ 5 < option_text.length ∧ option_text ∉ options.map Prod.snd then
        extract_options_spans rest (idx + 1) (options ++ [(option_keys.getD idx "", option_text)])
      else
        extract_options_spans rest (idx + 1) options

/-- Embeds `_extract_question_and_options_html` (nejm_downloader.py
lines 89-141): reject when the content area, the right area, the
question text (absent, empty or shorter than 5 characters) or the
answers container is missing; otherwise return the stripped question
text and the options collected from the answer spans. -/
def extract_question_and_options_html (page : ChallengePage) :
    Option String × List (String × String) :=
  if !page.qa_content then (none, [])
  else if !page.qa_right then (none, [])
  else
    let question_text : Option String :=
      match page.question_div with
      | some t => some (strStrip t)
      | none =>
        match page.classed_divs with
        | _ :: d2 :: _ => some (strStrip d2)
        | _ => none
    match question_text with
    | none => (none, [])
    | some q =>
      if q.length < 5 then (none, [])
      else
        match page.answers_div with
        | none => (none, [])
        | some spans => (some q, extract_options_spans spans 0 [])

/-! ### nejm_downloader.py — Strategy B (text heuristic) -/

/-- Clinical keywords of `_extract_question_and_options_text`
(nejm_downloader.py line 165). -/
def clinical_keywords : List String :=
  ["patient", "presented", "symptoms", "diagnosed", "examination",
   "year", "old", "woman", "man", "history"]

/-- Noise test of the line scan (nejm_downloader.py lines 196-198): the
line ends in `%`, is one of the known UI strings (lowercased), or is
shorter than 5 characters. -/
def noise_line (line : String) : Bool :=
  strEndsWithChar line '%' ||
  (strLower line ∈ ["try again!", "submit", "back to image challenge",
      "see how others chose", "next challenge"]) ||
  line.length < 5

/-- Explanation-marker test (nejm_downloader.py line 202): the
lowercased line contains one of the explanation indicator phrases. -/
def explanation_line (line : String) : Bool :=
  ["this is", "this type", "characterized by", "is an", "is a",
   "can be", "may be", "results in"].any fun phrase => strContains (strLower line) phrase

/-- Navigation-marker test (nejm_downloader.py line 206): the lowercased
line contains one of the navigation section words. -/
def navigation_line (line : String) : Bool :=
  ["more image challenges", "total responses", "see how others"].any
    fun word => strContains (strLower line) word

/-- Rejected-option test (nejm_downloader.py line 225). -/
def rejected_option_line (line : String) : Bool :=
  ["try again", "that is not", "correct answer"].any
    fun phrase => strContains (strLower line) phrase

/-- One step of `line_counts` / `line_order` maintenance
(nejm_downloader.py lines 209-212), with the dict and the order list
fused into one insertion-ordered association list: a new line is
appended with count 1, a seen line has its count incremented. -/
def bump_line : List (String × Nat) → String → List (String × Nat)
  | [], line => [(line, 1)]
  | (l, c) :: rest, line =>
    if l = line then (l, c + 1) :: rest else (l, c) :: bump_line rest line

/-- Embeds the line scan of `_extract_question_and_options_text`
(nejm_downloader.py lines 194-212): skip noise lines, stop at the first
explanation or navigation marker, and count the remaining lines in
order of first appearance. -/
def scan_lines : List String → List (String × Nat) → List (String × Nat)
  | [], acc => acc
  | line :: rest, acc =>
    if noise_line line then scan_lines rest acc
    else if explanation_line line then acc
    else if navigation_line line then acc
    else scan_lines rest (bump_line acc line)

/-- Embeds the option-selection loop (nejm_downloader.py lines 219-227):
walk the lines in order of first appearance, stop once 6 labels are
assigned, and label a line when it occurred at least twice, is longer
than 15 characters and carries no rejected-answer phrase. -/
def select_options : List (String × Nat) → Nat → List (String × String)
  | [], _ => []
  | (line, count) :: rest, option_idx =>
    if 6 ≤ option_idx then []
    else if 2 ≤ count ∧ 15 < line.length ∧ rejected_option_line line = false then
      (option_keys.getD option_idx "", line) :: select_options rest (option_idx + 1)
    else
      select_options rest option_idx

/-- Embeds the question search (nejm_downloader.py lines 161-171): the
first paragraph longer than 50 characters containing a clinical
keyword, together with its index. -/
def find_clinical_question : List String → Nat → Option (String × Nat)
  | [], _ => none
  | para :: rest, i =>
    if 50 < para.length ∧
        (clinical_keywords.any fun keyword => strContains (strLower para) (strLower keyword)) then
      some (para, i)
    else find_clinical_question rest (i + 1)

/-- Embeds the fallback question search (nejm_downloader.py lines
174-179): the first paragraph longer than 50 characters;
`q_start_idx` keeps its initial value 0 in this branch. -/
def find_fallback_question : List String → Option String
  | [] => none
  | para :: rest =>
    if 50 < para.length then some para else find_fallback_question rest

/-- Embeds `_extract_question_and_options_text` (nejm_downloader.py
lines 143-229): normalize `\r` to `\n`, split into stripped nonempty
paragraphs, locate the question paragraph, then scan the lines of the
remaining paragraphs and select up to 6 repeated lines as options. -/
def extract_question_and_options_text (full_text : String) :
    Option String × List (String × String) :=
  let normalized := strReplace full_text "\x0d" "\n"
  let paragraphs := ((chSplitParas normalized.data).map fun p =>
    strStrip ⟨p⟩).filter fun p => p ≠ ""
  let q := match find_clinical_question paragraphs 0 with
    | some (para, i) => some (para, i)
    | none =>
      match find_fallback_question paragraphs with
      | some para => some (para, 0)
      | none => none
  match q with
  | none => (none, [])
  | some (question_text, q_start_idx) =>
    let remaining_text := chJoin "\n\n".data ((paragraphs.drop (q_start_idx + 1)).map String.data)
    let lines := ((chSplitOn '\n' remaining_text).map fun l =>
      strStrip ⟨l⟩).filter fun l => l ≠ ""
    let line_entries := scan_lines lines []
    (some question_text, select_options line_entries 0)

/-! ### json2latex.py -/

/-- Character filter of `escape_latex` (json2latex.py lines 23-35): drop
control characters other than newline and tab, the C1 control range,
and combining diacritical marks. -/
def escape_keep_char (c : Char) : Bool :=
  let code := c.toNat
  if code < 32 && c ≠ '\n' && c ≠ '\t' then false
  else if 0x80 ≤ code && code ≤ 0x9F then false
  else if 0x300 ≤ code && code ≤ 0x36F then false
  else true

/-- Replacement table of `escape_latex` (json2latex.py lines 40-59), in
source order: backslash first, then the LaTeX specials, then smart
quotes and dashes. -/
def escape_replacements : List (String × String) :=
  [("\\", "\\textbackslash\x7b\x7d"),
   ("&", "\\&"),
   ("%", "\\%"),
   ("$", "\\$"),
   ("#", "\\#"),
   ("_", "\\_"),
   ("\x7b", "\\\x7b"),
   ("\x7d", "\\\x7d"),
   ("~", "\\textasciitilde\x7b\x7d"),
   ("^", "\\textasciicircum\x7b\x7d"),
   ("\u2019", "\x27"),
   ("\u2018", "\x27"),
   ("\u201c", "\""),
   ("\u201d", "\""),
   ("\u2013", "-"),
   ("\u2014", "-"),
   ("\u2212", "-")]

/-- Embeds `escape_latex` (json2latex.py lines 17-64): filter the
characters, then apply each replacement of the table in order over the
whole string (so a replacement may rewrite text produced by an earlier
one, exactly as the sequential `str.replace` calls do).  The source
returns a falsy input unchanged; the empty string is unchanged under
both branches. -/
def escape_latex (text : String) : String :=
  let cleaned : String := ⟨text.data.filter escape_keep_char⟩
  escape_replacements.foldl (fun t p => strReplace t p.1 p.2) cleaned

/-- Challenge-record fields consumed by the renderer: the question text,
the options mapping and the optional answer (the shapes produced by
`batch_download` and read back by `read_questions`). -/
structure QuestionData where
  question : String
  options : List (String × String)
  answer : Option String

/-- Python truthiness of the `answer` field as tested by
the truthiness test applied to the answer field. -/
def answerTruthy : Option String → Bool
  | none => false
  | some s => s ≠ ""

/-- Baseline skip of the 11pt article (json2latex.py line 71),
`13.2` points as an exact rational. -/
def BASELINESKIP_PT : ℚ := 66 / 5

/-- Option labels enumerated by `estimate_text_height` (line 88) and by
the options loop of `create_latex_document` (line 313). -/
def option_item_keys : List String := ["A", "B", "C", "D", "E"]

/-- One iteration of the option-line count of `estimate_text_height`
(json2latex.py lines 88-93): when the key is present, add the estimated
line count of its text at 75 characters per line. -/
def estimate_option_step (options : List (String × String)) (acc : ℕ) (key : String) : ℕ :=
  match List.lookup key options with
  | some option_text => acc + max 1 (option_text.length / 75 + 1)
  | none => acc

/-- Embeds `estimate_text_height` (json2latex.py lines 67-107) over
exact rationals: header, date line, question lines at 80 characters per
line, options header, the lines of the options labelled A through E at
75 characters per line, the answer line when present and truthy, and
the image header. -/
def estimate_text_height (question_data : QuestionData) (has_answer : Bool) : ℚ :=
  let header_height := BASELINESKIP_PT * (12 / 10)
  let date_height := BASELINESKIP_PT + 6
  let question_lines : ℕ := max 1 (question_data.question.length / 80 + 1)
  let question_height := (question_lines : ℚ) * BASELINESKIP_PT + 12
  let options_header := BASELINESKIP_PT
  let total_option_lines : ℕ :=
    option_item_keys.foldl (estimate_option_step question_data.options) 0
  let options_height := (total_option_lines : ℚ) * BASELINESKIP_PT
  let answer_height : ℚ :=
    if has_answer && answerTruthy question_data.answer then BASELINESKIP_PT + 12 else 0
  let image_header := BASELINESKIP_PT
  header_height + date_height + question_height +
    options_header + options_height + answer_height + image_header

/-- One `\item` line of the options loop of `create_latex_document`
(json2latex.py line 317). -/
def option_item_line (option_key option_text : String) : String :=
  "\\item[" ++ option_key ++ ".] " ++ escape_latex option_text

/-- One iteration of the options loop of `create_latex_document`
(json2latex.py lines 313-317): append the item line when the key is
present in the options of the record. -/
def options_block_step (options : List (String × String)) (acc : List String)
    (option_key : String) : List String :=
  match List.lookup option_key options with
  | some option_text => acc ++ [option_item_line option_key option_text]
  | none => acc

/-- Embeds the options block of `create_latex_document` (json2latex.py
lines 310-319): the `Options:` header, the enumerate environment, and
one `\item` line per label A through E present in the options of the
record, in that label order. -/
def options_block (options : List (String × String)) : List String :=
  ["\\textbf\x7bOptions:\x7d", "\\begin\x7benumerate\x7d"] ++
  option_item_keys.foldl (options_block_step options) [] ++
  ["\\end\x7benumerate\x7d"]

/-- Python `round(x, 2)` on an exact value: round half to even at two
decimal places. -/
def pyRound2 (x : ℚ) : ℚ :=
  let y := x * 100
  let f : ℤ := ⌊y⌋
  let r := y - (f : ℚ)
  let n : ℤ :=
    if r < 1 / 2 then f
    else if 1 / 2 < r then f + 1
    else if f % 2 = 0 then f else f + 1
  (n : ℚ) / 100

/-- Embeds `calculate_optimal_scale` (json2latex.py lines 140-191) over
exact rationals.  `img_size` is the pixel size reported by PIL, `none`
standing for a missing image file or any error while opening it (both
handled by returning `DEFAULT_SCALE = 1.0`).  `text_height_pt` and
`question_id` are accepted and, as in the source, never used in the
computation. -/
def calculate_optimal_scale (img_size : Option (ℕ × ℕ)) (text_height_pt : ℚ)
    (question_id : String) : ℚ :=
  let TEXTHEIGHT_PT : ℚ := 3252 / 5
  let TEXTWIDTH_PT : ℚ := 2349 / 5
  let MAX_IMAGE_HEIGHT_RATIO : ℚ := 60 / 100
  let MAX_IMAGE_WIDTH_RATIO : ℚ := 95 / 100
  let DEFAULT_SCALE : ℚ := 1
  match img_size with
  | none => DEFAULT_SCALE
  | some (img_width_px, img_height_px) =>
    let aspect_ratio : ℚ := (img_width_px : ℚ) / (img_height_px : ℚ)
    let max_height_pt := TEXTHEIGHT_PT * MAX_IMAGE_HEIGHT_RATIO
    let max_width_pt := TEXTWIDTH_PT * MAX_IMAGE_WIDTH_RATIO
    let target_height_pt := max_height_pt
    let target_width_pt := target_height_pt * aspect_ratio
    let target_width_pt := if max_width_pt < target_width_pt then max_width_pt else target_width_pt
    let scale := target_width_pt / TEXTWIDTH_PT
    let scale := max (3 / 10) (min (95 / 100) scale)
    pyRound2 scale

/-! ### nejm_image_caption.py -/

/-- Embeds `load_existing_captions` (nejm_image_caption.py lines
168-186): a missing file and a JSON parse failure both yield the empty
dict; any parsed value is returned as is. -/
def load_existing_captions : FileContent → JValue
  | .missing => .jobj []
  | .malformed => .jobj []
  | .parsed v => v

/-- Embeds `read_questions` (json2latex.py lines 110-113): `json.load`
with no exception handling, so a missing file raises
`FileNotFoundError` and unparseable content raises
`json.JSONDecodeError` to the caller. -/
def read_questions : FileContent → Except PyErr JValue
  | .missing => .error .fileNotFoundError
  | .malformed => .error .jsonDecodeError
  | .parsed v => .ok v

/-! ### Dict-update lemmas -/

/-- Reading back the key just written by `Jobj.set`. -/
theorem Jobj.get_set_eq (o : Jobj) (k : String) (v : JValue) :
    Jobj.get (Jobj.set o k v) k = v := by
  induction o with
  | nil => simp [Jobj.set, Jobj.get, List.lookup]
  | cons p rest ih =>
    obtain ⟨k', v'⟩ := p
    by_cases h : k' = k
    · subst h
      simp [Jobj.set, Jobj.get, List.lookup]
    · have hb : (k == k') = false := beq_eq_false_iff_ne.mpr (Ne.symm h)
      simpa [Jobj.set, Jobj.get, List.lookup, h, hb] using ih

/-- Reading a different key than the one written by `Jobj.set`. -/
theorem Jobj.get_set_ne (o : Jobj) (k k' : String) (v : JValue) (h : k' ≠ k) :
    Jobj.get (Jobj.set o k v) k' = Jobj.get o k' := by
  have hb : (k' == k) = false := beq_eq_false_iff_ne.mpr h
  induction o with
  | nil => simp [Jobj.set, Jobj.get, List.lookup, hb]
  | cons p rest ih =>
    obtain ⟨k₀, v₀⟩ := p
    by_cases h0 : k₀ = k
    · subst h0
      simp [Jobj.set, Jobj.get, List.lookup, hb]
    · by_cases h1 : k' = k₀
      · subst h1
        have hb1 : (k' == k') = true := beq_self_eq_true k'
        simp [Jobj.set, Jobj.get, List.lookup, h0, hb1]
      · have hb1 : (k' == k₀) = false := beq_eq_false_iff_ne.mpr h1
        simpa [Jobj.set, Jobj.get, List.lookup, h0, hb1] using ih

/-! ### Claim C5 — generate_date_range -/

/-- Closed form of `generate_date_range`: for `s ≤ e` it is the map of
`i ↦ s + 7 i` over `range (⌊(e-s)/7⌋ + 1)`.  The outer `Nat` bound
drives the induction. -/
theorem generate_date_range_closed (n : Nat) : ∀ s e : Int, (e - s).toNat ≤ n → s ≤ e →
    generate_date_range s e =
      (List.range (((e - s) / 7).toNat + 1)).map (fun i : Nat => s + 7 * (i : Int)) := by
  induction n with
  | zero =>
    intro s e h1 h2
    have he : e = s := by omega
    subst he
    rw [generate_date_range, if_pos le_rfl, generate_date_range, if_neg (by omega)]
    have h1 : List.range 1 = [0] := rfl
    simp [h1]
  | succ n ih =>
    intro s e h1 h2
    rw [generate_date_range, if_pos h2]
    by_cases h7 : s + 7 ≤ e
    · rw [ih (s + 7) e (by omega) h7]
      have key : ((e - s) / 7).toNat + 1 = (((e - (s + 7)) / 7).toNat + 1) + 1 := by omega
      conv_rhs => rw [key, List.range_succ_eq_map]
      simp only [List.map_cons, List.map_map]
      congr 1
      · simp
      · refine List.map_congr_left fun i _ => ?_
        simp only [Function.comp_apply]
        push_cast
        ring
    · rw [generate_date_range, if_neg h7]
      have h0 : (e - s) / 7 = 0 := by omega
      rw [h0]
      have h1 : List.range 1 = [0] := rfl
      simp [h1]

/-- Claim C5: for every pair of dates with `start ≤ end` (dates as day
numbers), `generate_date_range` returns `⌊(end - start)/7⌋ + 1` dates,
the first equal to `start` and each consecutive pair exactly 7 days
apart. -/
theorem generate_date_range_spec (s e : Int) (h : s ≤ e) :
    (generate_date_range s e).length = ((e - s) / 7).toNat + 1 ∧
    (generate_date_range s e).head? = some s ∧
    ∀ i : Nat, i + 1 < (generate_date_range s e).length →
      (generate_date_range s e).getD (i + 1) 0 = (generate_date_range s e).getD i 0 + 7 := by
  have hc := generate_date_range_closed (e - s).toNat s e le_rfl h
  refine ⟨?_, ?_, ?_⟩
  · rw [hc]; simp
  · rw [hc, List.range_succ_eq_map]
    simp only [List.map_cons, List.head?_cons]
    norm_num
  · intro i hi
    rw [hc] at hi ⊢
    simp only [List.length_map, List.length_range] at hi
    rw [List.getD_eq_getElem?_getD, List.getD_eq_getElem?_getD]
    rw [List.getElem?_map, List.getElem?_map]
    rw [List.getElem?_range (by omega), List.getElem?_range (by omega)]
    simp only [Option.map_some', Option.getD_some]
    push_cast
    ring

/-- Witness for C5 at `start = 0`, `end = 14`. -/
theorem generate_date_range_spec_witness :
    (generate_date_range 0 14).length = ((14 - 0 : Int) / 7).toNat + 1 ∧
    (generate_date_range 0 14).head? = some 0 ∧
    ∀ i : Nat, i + 1 < (generate_date_range 0 14).length →
      (generate_date_range 0 14).getD (i + 1) 0 = (generate_date_range 0 14).getD i 0 + 7 :=
  generate_date_range_spec 0 14 (by norm_num)

/-! ### Claim C2 — merge_challenge_data -/

/-- Counterexample input for C2: a downloaded record with a null answer. -/
def c2_downloaded : Jobj := [("id", .jstr "20051013"), ("answer", .null), ("image", .null)]

/-- Counterexample input for C2: the existing record has the non-null
(but empty, hence falsy) answer `""`. -/
def c2_existing : Jobj := [("answer", .jstr ""), ("image", .null)]

/-- Counterexample input for C2: the existing lookup. -/
def c2_lookup : List (String × Jobj) := [("20051013", c2_existing)]

/-- Counterexample for C2 as stated: the existing record with the same
id has the non-null answer `""`, yet `merge_challenge_data` leaves the
answer of the downloaded record `null` — the non-null existing answer is
dropped in favor of a null one, because the source tests Python
truthiness (`if existing.get("answer"):`) rather than non-nullness. -/
theorem merge_challenge_data_empty_answer_cex :
    List.lookup (pyStr (Jobj.get c2_downloaded "id")) c2_lookup = some c2_existing ∧
    Jobj.get c2_existing "answer" ≠ JValue.null ∧
    Jobj.get (merge_challenge_data c2_downloaded c2_lookup) "answer" = JValue.null :=
  ⟨rfl, fun h => JValue.noConfusion h, rfl⟩

/-- Claim C2 (amended: "non-null" strengthened to "truthy", i.e.
non-null and non-empty, matching the truthiness tests of the source): when
the existing record whose key is the id of the downloaded record has a truthy
`answer` (resp. `image`), the merge result carries that existing value;
and when the downloaded record already agrees with the existing record
on both fields, the merge changes neither field. -/
theorem merge_challenge_data_preserves_truthy (downloaded : Jobj)
    (existing_data : List (String × Jobj)) (existing : Jobj)
    (hex : List.lookup (pyStr (Jobj.get downloaded "id")) existing_data = some existing) :
    ((Jobj.get existing "answer").truthy = true →
      Jobj.get (merge_challenge_data downloaded existing_data) "answer" =
        Jobj.get existing "answer") ∧
    ((Jobj.get existing "image").truthy = true →
      Jobj.get (merge_challenge_data downloaded existing_data) "image" =
        Jobj.get existing "image") ∧
    (Jobj.get downloaded "answer" = Jobj.get existing "answer" →
      Jobj.get downloaded "image" = Jobj.get existing "image" →
      Jobj.get (merge_challenge_data downloaded existing_data) "answer" =
          Jobj.get downloaded "answer" ∧
        Jobj.get (merge_challenge_data downloaded existing_data) "image" =
          Jobj.get downloaded "image") := by
  simp only [merge_challenge_data, hex]
  by_cases ha : (Jobj.get existing "answer").truthy = true <;>
    by_cases hi : (Jobj.get existing "image").truthy = true <;>
      simp only [ha, hi, if_pos, if_neg, if_true, if_false, Bool.not_eq_true] <;>
        constructor <;>
          try constructor
  all_goals
    try intro hda hdi
  all_goals
    simp_all [Jobj.get_set_eq, Jobj.get_set_ne]

/-- Witness for C2 at a concrete merge with truthy existing fields. -/
theorem merge_challenge_data_preserves_truthy_witness :
    ((Jobj.get [("answer", JValue.jstr "Melanoma"), ("image", JValue.jstr "images/a.jpg")]
        "answer").truthy = true →
      Jobj.get (merge_challenge_data [("id", JValue.jstr "20060101"), ("answer", JValue.null)]
          [("20060101",
            [("answer", JValue.jstr "Melanoma"), ("image", JValue.jstr "images/a.jpg")])])
        "answer" =
        Jobj.get [("answer", JValue.jstr "Melanoma"), ("image", JValue.jstr "images/a.jpg")]
          "answer") ∧
    ((Jobj.get [("answer", JValue.jstr "Melanoma"), ("image", JValue.jstr "images/a.jpg")]
        "image").truthy = true →
      Jobj.get (merge_challenge_data [("id", JValue.jstr "20060101"), ("answer", JValue.null)]
          [("20060101",
            [("answer", JValue.jstr "Melanoma"), ("image", JValue.jstr "images/a.jpg")])])
        "image" =
        Jobj.get [("answer", JValue.jstr "Melanoma"), ("image", JValue.jstr "images/a.jpg")]
          "image") ∧
    (Jobj.get [("id", JValue.jstr "20060101"), ("answer", JValue.null)] "answer" =
        Jobj.get [("answer", JValue.jstr "Melanoma"), ("image", JValue.jstr "images/a.jpg")]
          "answer" →
      Jobj.get [("id", JValue.jstr "20060101"), ("answer", JValue.null)] "image" =
          Jobj.get [("answer", JValue.jstr "Melanoma"), ("image", JValue.jstr "images/a.jpg")]
            "image" →
      Jobj.get (merge_challenge_data [("id", JValue.jstr "20060101"), ("answer", JValue.null)]
            [("20060101",
              [("answer", JValue.jstr "Melanoma"), ("image", JValue.jstr "images/a.jpg")])])
          "answer" =
          Jobj.get [("id", JValue.jstr "20060101"), ("answer", JValue.null)] "answer" ∧
        Jobj.get (merge_challenge_data [("id", JValue.jstr "20060101"), ("answer", JValue.null)]
            [("20060101",
              [("answer", JValue.jstr "Melanoma"), ("image", JValue.jstr "images/a.jpg")])])
          "image" =
          Jobj.get [("id", JValue.jstr "20060101"), ("answer", JValue.null)] "image") :=
  merge_challenge_data_preserves_truthy
    [("id", JValue.jstr "20060101"), ("answer", JValue.null)]
    [("20060101", [("answer", JValue.jstr "Melanoma"), ("image", JValue.jstr "images/a.jpg")])]
    [("answer", JValue.jstr "Melanoma"), ("image", JValue.jstr "images/a.jpg")] rfl

/-! ### Claim C7 — malformed persisted JSON -/

/-- Counterexample for C7 as stated: `read_questions` (json2latex.py
lines 110-113) has no exception handling, so on a file whose content is
not parseable JSON it raises `json.JSONDecodeError` to the caller
instead of treating the file as an empty collection. -/
theorem read_questions_malformed_raises_cex :
    read_questions .malformed = .error .jsonDecodeError := rfl

/-- Claim C7 (amended: only the two loaders with handlers treat
unparseable JSON as empty; `load_existing_data` additionally treats a
non-list top level as empty; `read_questions` propagates the parse
error to its caller). -/
theorem malformed_json_reader_behavior (s : String) :
    load_existing_data .malformed = .ok ([], []) ∧
    load_existing_data (.parsed (.jstr s)) = .ok ([], []) ∧
    load_existing_captions .malformed = .jobj [] ∧
    read_questions .malformed = .error PyErr.jsonDecodeError :=
  ⟨rfl, rfl, rfl, rfl⟩

/-! ### Claim C8 — skipping already-downloaded challenges -/

/-- Counterexample input for C8: an existing record whose `image` field
is the non-null empty string. -/
def c8_existing : Jobj := [("image", .jstr "")]

/-- Counterexample input for C8: the existing lookup for c8. -/
def c8_lookup : List (String × Jobj) := [("20051013", c8_existing)]

/-- Counterexample for C8 as stated: the id `20051013` is present in
the existing collection with the non-null image `""`, yet the run still
queues it for download (membership in `to_download` is exactly the set
of ids passed to `download_challenge` by the loop at
batch_download.py lines 205-207), because the skip test uses Python
truthiness and `""` is falsy. -/
theorem empty_image_redownload_cex :
    List.lookup "20051013" c8_lookup = some c8_existing ∧
    Jobj.get c8_existing "image" ≠ JValue.null ∧
    to_download ["20051013"] c8_lookup = ["20051013"] :=
  ⟨rfl, fun h => JValue.noConfusion h, rfl⟩

/-- Claim C8 (amended: "non-null image" strengthened to "truthy image",
i.e. non-null and non-empty, matching the
`if existing.get("image"):` test of the source): an id present in the existing lookup
with a truthy image never enters `to_download`, hence
`download_challenge` — the only network-touching call of the loop — is
never invoked for it. -/
theorem skip_download_of_truthy_image (challenge_ids : List String)
    (lookup : List (String × Jobj)) (cid : String) (existing : Jobj)
    (hex : List.lookup cid lookup = some existing)
    (himg : (Jobj.get existing "image").truthy = true) :
    cid ∉ to_download challenge_ids lookup := by
  intro hmem
  unfold to_download at hmem
  have hp := List.of_mem_filter hmem
  rw [hex] at hp
  simp [himg] at hp

/-- Witness for C8: a concrete id with a truthy stored image is not
queued. -/
theorem skip_download_of_truthy_image_witness :
    "20051013" ∉ to_download ["20051013", "20051020"]
      [("20051013", [("image", JValue.jstr "images/nejm_20051013.jpg")])] :=
  skip_download_of_truthy_image ["20051013", "20051020"]
    [("20051013", [("image", JValue.jstr "images/nejm_20051013.jpg")])]
    "20051013" [("image", JValue.jstr "images/nejm_20051013.jpg")] rfl rfl

/-! ### Claim C10 — no write without new challenges -/

/-- Claim C10: when no challenge is successfully downloaded (the
`new_challenges` list built by the download loop is empty),
`batch_download` returns before opening the output file (`none` in the
model), leaving the persisted collection file unchanged. -/
theorem batch_download_no_write_when_no_new (challenge_ids : List String)
    (existing_file : FileContent) (dl : String → Option Jobj)
    (lookup : List (String × Jobj)) (existing_list : List JValue)
    (hload : load_existing_data existing_file = .ok (lookup, existing_list))
    (hnc : new_challenges challenge_ids lookup dl = []) :
    batch_download challenge_ids existing_file dl = .ok none := by
  unfold batch_download
  by_cases hids : challenge_ids.isEmpty <;> simp [hids, hload, hnc]

/-- Witness for C10: every download fails, nothing is written. -/
theorem batch_download_no_write_when_no_new_witness :
    batch_download ["20051013"] .missing (fun _ => none) = .ok none :=
  batch_download_no_write_when_no_new ["20051013"] .missing (fun _ => none) [] [] rfl rfl

/-! ### Claim C1 — uniqueness of ids in the written collection -/

/-- Failing input for C1: the persisted collection already holds a
record with id `20051013` and a null image. -/
def c1_existing_file : FileContent :=
  .parsed (.jarr [.jobj [("id", .jstr "20051013"), ("image", .null)]])

/-- Failing input for C1: the download of `20051013` succeeds, returning
the record shape built by `download_challenge`
(batch_download.py lines 98-105). -/
def c1_download : String → Option Jobj := fun challenge_id =>
  if challenge_id = "20051013" then
    some [("id", .jstr "20051013"), ("date", .jstr "October 13,2005"),
          ("question", .jstr "A patient presented with a rash. What is the diagnosis?"),
          ("options", .jobj [("A", .jstr "Measles"), ("B", .jstr "Rubella")]),
          ("image", .jstr "images/nejm_20051013.jpg"), ("answer", .null)]
  else none

/-- Test for a record carrying the id `20051013`. -/
def c1_has_target_id (v : JValue) : Bool :=
  match v with
  | .jobj fields => pyStr (Jobj.get fields "id") == "20051013"
  | _ => false

/-- Claim C1 is violated by the code (code bug): starting from a
collection loaded by `load_existing_data` that contains a record with
id `20051013` and a null image, requesting that same id re-downloads it
(the null image fails the skip test) and `batch_download` appends the
fresh record to `existing_data_list` without removing the stale one
(batch_download.py line 220), so the written collection holds two
records with id `20051013` — contradicting the uniqueness invariant
of the spec. -/
theorem batch_download_duplicate_id_bug :
    batch_download ["20051013"] c1_existing_file c1_download =
      .ok (some [.jobj [("id", .jstr "20051013"), ("image", .null)],
                 .jobj [("id", .jstr "20051013"), ("date", .jstr "October 13,2005"),
                        ("question",
                         .jstr "A patient presented with a rash. What is the diagnosis?"),
                        ("options", .jobj [("A", .jstr "Measles"), ("B", .jstr "Rubella")]),
                        ("image", .jstr "images/nejm_20051013.jpg"), ("answer", .null)]]) ∧
    List.countP c1_has_target_id
      [JValue.jobj [("id", .jstr "20051013"), ("image", .null)],
       JValue.jobj [("id", .jstr "20051013"), ("date", .jstr "October 13,2005"),
                    ("question",
                     .jstr "A patient presented with a rash. What is the diagnosis?"),
                    ("options", .jobj [("A", .jstr "Measles"), ("B", .jstr "Rubella")]),
                    ("image", .jstr "images/nejm_20051013.jpg"), ("answer", .null)]] = 2 :=
  ⟨rfl, rfl⟩

/-! ### Claim C3 — Strategy B option invariants -/

/-- Keys after a `bump_line` step: unchanged for a seen line, extended
at the end for a new one. -/
theorem bump_line_keys (acc : List (String × Nat)) (line : String) :
    (bump_line acc line).map Prod.fst =
      if line ∈ acc.map Prod.fst then acc.map Prod.fst
      else acc.map Prod.fst ++ [line] := by
  induction acc with
  | nil => simp [bump_line]
  | cons p rest ih =>
    obtain ⟨l, c⟩ := p
    by_cases h : l = line
    · subst h
      simp [bump_line]
    · by_cases hm : line ∈ rest.map Prod.fst <;>
        simp [bump_line, h, Ne.symm h, hm, ih]

/-- Every key produced by the line scan is an initial key or a line that
passed the explanation and navigation break tests. -/
theorem scan_lines_keys_mem (lines : List String) (acc : List (String × Nat)) :
    ∀ k ∈ (scan_lines lines acc).map Prod.fst,
      k ∈ acc.map Prod.fst ∨ (explanation_line k = false ∧ navigation_line k = false) := by
  induction lines generalizing acc with
  | nil => exact fun k hk => .inl hk
  | cons line rest ih =>
    intro k hk
    unfold scan_lines at hk
    by_cases hn : noise_line line = true
    · rw [if_pos hn] at hk
      exact ih acc k hk
    · rw [if_neg hn] at hk
      by_cases he : explanation_line line = true
      · rw [if_pos he] at hk
        exact .inl hk
      · rw [if_neg he] at hk
        by_cases hv : navigation_line line = true
        · rw [if_pos hv] at hk
          exact .inl hk
        · rw [if_neg hv] at hk
          rcases ih (bump_line acc line) k hk with h | h
          · rw [bump_line_keys] at h
            by_cases hm : line ∈ acc.map Prod.fst
            · rw [if_pos hm] at h
              exact .inl h
            · rw [if_neg hm] at h
              rcases List.mem_append.mp h with h | h
              · exact .inl h
              · rcases List.mem_singleton.mp h with rfl
                exact .inr ⟨Bool.not_eq_true _ ▸ he, Bool.not_eq_true _ ▸ hv⟩
          · exact .inr h

/-- The line scan keeps the keys free of duplicates. -/
theorem scan_lines_keys_nodup (lines : List String) (acc : List (String × Nat))
    (h : (acc.map Prod.fst).Nodup) : ((scan_lines lines acc).map Prod.fst).Nodup := by
  induction lines generalizing acc with
  | nil => exact h
  | cons line rest ih =>
    unfold scan_lines
    by_cases hn : noise_line line = true
    · rw [if_pos hn]
      exact ih acc h
    · rw [if_neg hn]
      by_cases he : explanation_line line = true
      · rw [if_pos he]; exact h
      · rw [if_neg he]
        by_cases hv : navigation_line line = true
        · rw [if_pos hv]; exact h
        · rw [if_neg hv]
          refine ih (bump_line acc line) ?_
          rw [bump_line_keys]
          by_cases hm : line ∈ acc.map Prod.fst
          · rw [if_pos hm]; exact h
          · rw [if_neg hm]
            simp [List.nodup_append, h, hm]

/-- The option-selection loop emits at most `6 - idx` options. -/
theorem select_options_length (entries : List (String × Nat)) :
    ∀ idx, (select_options entries idx).length ≤ 6 - idx := by
  induction entries with
  | nil => intro idx; simp [select_options]
  | cons p rest ih =>
    intro idx
    obtain ⟨line, count⟩ := p
    unfold select_options
    by_cases h6 : 6 ≤ idx
    · rw [if_pos h6]; simp
    · rw [if_neg h6]
      by_cases hc : 2 ≤ count ∧ 15 < line.length ∧ rejected_option_line line = false
      · rw [if_pos hc]
        have := ih (idx + 1)
        simp only [List.length_cons]
        omega
      · rw [if_neg hc]
        have := ih idx
        omega

/-- The option values form a sublist of the scanned keys: each entry is
consumed at most once, in order. -/
theorem select_options_vals_sublist (entries : List (String × Nat)) :
    ∀ idx, ((select_options entries idx).map Prod.snd).Sublist (entries.map Prod.fst) := by
  induction entries with
  | nil => intro idx; simp [select_options]
  | cons p rest ih =>
    intro idx
    obtain ⟨line, count⟩ := p
    unfold select_options
    by_cases h6 : 6 ≤ idx
    · rw [if_pos h6]
      simp
    · rw [if_neg h6]
      by_cases hc : 2 ≤ count ∧ 15 < line.length ∧ rejected_option_line line = false
      · rw [if_pos hc]
        simpa using List.Sublist.cons₂ line (ih (idx + 1))
      · rw [if_neg hc]
        exact List.Sublist.cons line (ih idx)

/-- Claim C3: for every input text, the options mapping produced by
Strategy B (`_extract_question_and_options_text`) has at most 6
entries, its values are pairwise distinct, and no value is a line
flagged by the navigation or explanation marker tests (such as a line
containing `more image challenges` or `characterized by`). -/
theorem strategyB_options_bounded_nodup_unflagged (full_text : String) :
    (extract_question_and_options_text full_text).2.length ≤ 6 ∧
    ((extract_question_and_options_text full_text).2.map Prod.snd).Nodup ∧
    ∀ p ∈ (extract_question_and_options_text full_text).2,
      explanation_line p.2 = false ∧ navigation_line p.2 = false := by
  unfold extract_question_and_options_text
  dsimp only
  split
  · simp
  · rename_i q question_text q_start_idx heq
    refine ⟨?_, ?_, ?_⟩
    · exact select_options_length _ 0
    · exact (select_options_vals_sublist _ 0).nodup (scan_lines_keys_nodup _ [] (by simp))
    · intro p hp
      have hv := (select_options_vals_sublist _ 0).subset (List.mem_map_of_mem Prod.snd hp)
      rcases scan_lines_keys_mem _ [] p.2 hv with h | h
      · simp at h
      · exact h

/-! ### Claim C4 — Strategy A option labelling -/

/-- Counterexample page for C4: a well-formed page whose answers
container carries a duplicated span. -/
def c4_page : ChallengePage :=
  { qa_content := true, qa_right := true,
    question_div := some "What is the diagnosis?",
    classed_divs := [],
    answers_div := some ["Alpha keratosis", "Alpha keratosis", "Beta keratosis"] }

/-- Counterexample for C4 as stated: on a page accepted by Strategy A
with spans `[Alpha, Alpha, Beta]`, the duplicate at span index 1 is
skipped but the surviving third span is labelled by its span index, so
the produced labels are `A` and `C` — the labels are not sequential and
have a gap at `B`. -/
theorem strategyA_label_gap_cex :
    (extract_question_and_options_html c4_page).1 = some "What is the diagnosis?" ∧
    (extract_question_and_options_html c4_page).2.map Prod.fst = ["A", "C"] := by
  constructor <;> decide

/-- Invariant of the Strategy A option loop: when every remaining span
is valid (nonempty and longer than 5 characters once stripped) and no
duplicate appears among the accumulated values and the remaining spans,
the loop appends the spans in source order, labelled by consecutive
entries of `option_keys` starting at the current span index. -/
theorem extract_options_spans_valid (spans : List String) :
    ∀ (idx : Nat) (options : List (String × String)),
      (∀ s ∈ spans, strStrip s ≠ "" ∧ 5 < (strStrip s).length) →
      ((options.map Prod.snd) ++ spans.map strStrip).Nodup →
      idx + spans.length ≤ 6 →
      extract_options_spans spans idx options =
        options ++ ((option_keys.drop idx).take spans.length).zip (spans.map strStrip) := by
  induction spans with
  | nil =>
    intro idx options _ _ _
    simp [extract_options_spans]
  | cons span rest ih =>
    intro idx options hval hnd hlen
    unfold extract_options_spans
    have hidx : idx < 6 := by
      simp only [List.length_cons] at hlen
      omega
    rw [if_neg (by omega)]
    obtain ⟨hne, hlen5⟩ := hval span (List.mem_cons_self span rest)
    have hmapcons : (span :: rest).map strStrip = strStrip span :: rest.map strStrip := rfl
    have hnotin : strStrip span ∉ options.map Prod.snd := by
      intro hmem
      rw [hmapcons] at hnd
      exact (List.disjoint_of_nodup_append hnd) hmem (by simp)
    rw [if_pos ⟨hne, hlen5, hnotin⟩]
    have hdrop : option_keys.drop idx =
        option_keys.getD idx "" :: option_keys.drop (idx + 1) := by
      rw [List.getD_eq_getElem option_keys "" (by rw [show option_keys.length = 6 from rfl]; omega)]
      exact List.drop_eq_getElem_cons (by rw [show option_keys.length = 6 from rfl]; omega)
    rw [ih (idx + 1) (options ++ [(option_keys.getD idx "", strStrip span)])
      (fun s hs => hval s (List.mem_cons_of_mem _ hs))
      (by
        rw [hmapcons] at hnd
        simpa [List.map_append] using hnd)
      (by simp only [List.length_cons] at hlen; omega)]
    rw [List.append_assoc, hmapcons, hdrop]
    simp only [List.length_cons, List.take_succ_cons, List.zip_cons_cons]
    rfl

/-- Claim C4 (amended: labels are assigned by span position, so a
skipped span — empty, too short, or a duplicate — leaves a gap in the
labels; sequential labels with no gaps are guaranteed when all spans
are valid and pairwise distinct and at most 6): for a page accepted by
Strategy A whose spans are all valid and pairwise distinct, the options
are the stripped spans in source order under the labels `A, B, C, …`,
and with exactly four such spans the keys are exactly `A, B, C, D`. -/
theorem strategyA_options_sequential_of_valid (page : ChallengePage) (q : String)
    (spans : List String)
    (hc : page.qa_content = true) (hr : page.qa_right = true)
    (hq : page.question_div = some q) (hqlen : ¬(strStrip q).length < 5)
    (hans : page.answers_div = some spans)
    (hval : ∀ s ∈ spans, strStrip s ≠ "" ∧ 5 < (strStrip s).length)
    (hnd : (spans.map strStrip).Nodup)
    (hlen : spans.length ≤ 6) :
    extract_question_and_options_html page =
      (some (strStrip q), (option_keys.take spans.length).zip (spans.map strStrip)) ∧
    (spans.length = 4 →
      (extract_question_and_options_html page).2.map Prod.fst = ["A", "B", "C", "D"]) := by
  have hmain : extract_question_and_options_html page =
      (some (strStrip q), (option_keys.take spans.length).zip (spans.map strStrip)) := by
    unfold extract_question_and_options_html
    rw [hc, hr, hq]
    simp only [Bool.not_true, Bool.false_eq_true, if_false]
    rw [if_neg hqlen, hans]
    dsimp only
    rw [extract_options_spans_valid spans 0 [] hval (by simpa using hnd) (by omega)]
    simp
  refine ⟨hmain, fun h4 => ?_⟩
  rw [hmain]
  have hstrips : (spans.map strStrip).length = 4 := by simpa using h4
  rw [h4]
  rw [List.map_fst_zip _ _ (by rw [hstrips]; rfl)]
  rfl

/-- Witness for C4: a page with four valid, distinct spans yields the
options labelled exactly `A, B, C, D` in source order. -/
theorem strategyA_options_sequential_of_valid_witness :
    extract_question_and_options_html
        { qa_content := true, qa_right := true,
          question_div := some "What is the diagnosis?",
          classed_divs := [],
          answers_div := some ["Measles virus", "Rubella virus",
                               "Herpes zoster", "Parvovirus B19"] } =
      (some (strStrip "What is the diagnosis?"),
        (option_keys.take (["Measles virus", "Rubella virus",
            "Herpes zoster", "Parvovirus B19"] : List String).length).zip
          ((["Measles virus", "Rubella virus",
             "Herpes zoster", "Parvovirus B19"] : List String).map strStrip)) ∧
    ((["Measles virus", "Rubella virus",
       "Herpes zoster", "Parvovirus B19"] : List String).length = 4 →
      (extract_question_and_options_html
          { qa_content := true, qa_right := true,
            question_div := some "What is the diagnosis?",
            classed_divs := [],
            answers_div := some ["Measles virus", "Rubella virus",
                                 "Herpes zoster", "Parvovirus B19"] }).2.map Prod.fst =
        ["A", "B", "C", "D"]) :=
  strategyA_options_sequential_of_valid
    { qa_content := true, qa_right := true,
      question_div := some "What is the diagnosis?",
      classed_divs := [],
      answers_div := some ["Measles virus", "Rubella virus",
                           "Herpes zoster", "Parvovirus B19"] }
    "What is the diagnosis?"
    ["Measles virus", "Rubella virus", "Herpes zoster", "Parvovirus B19"]
    rfl rfl rfl (by decide) rfl (by decide) (by decide) (by decide)

/-! ### Claim C6 — image scale bounds -/

/-- Counterexample for C6 as stated: for a missing (or unreadable)
image path, `calculate_optimal_scale` returns `DEFAULT_SCALE = 1.0`,
which is outside `[0.3, 0.95]`. -/
theorem calculate_optimal_scale_missing_image_cex :
    calculate_optimal_scale none 100 "20051013" = 1 ∧
    ¬(calculate_optimal_scale none 100 "20051013" ≤ 19 / 20) := by
  refine ⟨rfl, ?_⟩
  rw [show calculate_optimal_scale none 100 "20051013" = 1 from rfl]
  norm_num

/-- Rounding to two decimals keeps a value inside `[0.3, 0.95]` (both
endpoints are exact hundredths). -/
theorem pyRound2_bounds (x : ℚ) (h1 : 3 / 10 ≤ x) (h2 : x ≤ 19 / 20) :
    3 / 10 ≤ pyRound2 x ∧ pyRound2 x ≤ 19 / 20 := by
  unfold pyRound2
  dsimp only
  have hy1 : (30 : ℚ) ≤ x * 100 := by linarith
  have hy2 : x * 100 ≤ 95 := by linarith
  have hf1 : (30 : ℤ) ≤ ⌊x * 100⌋ := Int.le_floor.mpr (by exact_mod_cast hy1)
  have hf2 : ⌊x * 100⌋ ≤ 95 := by
    have h := Int.floor_le_floor hy2
    simpa using h
  have hfle : ((⌊x * 100⌋ : ℤ) : ℚ) ≤ x * 100 := Int.floor_le _
  have hc1 : (30 : ℚ) ≤ ((⌊x * 100⌋ : ℤ) : ℚ) := by exact_mod_cast hf1
  have hc2 : ((⌊x * 100⌋ : ℤ) : ℚ) ≤ 95 := by exact_mod_cast hf2
  have hplus : ∀ hhalf : (1 : ℚ) / 2 ≤ x * 100 - ((⌊x * 100⌋ : ℤ) : ℚ),
      ((⌊x * 100⌋ + 1 : ℤ) : ℚ) ≤ 95 := by
    intro hhalf
    have h94 : ⌊x * 100⌋ < 95 := by
      have : ((⌊x * 100⌋ : ℤ) : ℚ) < 95 := by linarith
      exact_mod_cast this
    push_cast
    have : ⌊x * 100⌋ ≤ 94 := by omega
    have : ((⌊x * 100⌋ : ℤ) : ℚ) ≤ 94 := by exact_mod_cast this
    linarith
  split_ifs with hr1 hr2 hpar
  · constructor <;> [linarith; linarith]
  · have h95 := hplus (by linarith)
    have hp : ((⌊x * 100⌋ : ℤ) : ℚ) + 1 ≤ 95 := by push_cast at h95; linarith
    constructor
    · push_cast
      linarith
    · push_cast
      linarith
  · constructor <;> [linarith; linarith]
  · have h95 := hplus (by linarith)
    have hp : ((⌊x * 100⌋ : ℤ) : ℚ) + 1 ≤ 95 := by push_cast at h95; linarith
    constructor
    · push_cast
      linarith
    · push_cast
      linarith

/-- Claim C6 (amended: restricted to images that exist and open
successfully, so that PIL reports a positive pixel size — for a missing
or unreadable path the source deliberately returns the out-of-range
default 1.0): for every readable image, whatever its aspect ratio, the
computed scale lies in `[0.3, 0.95]`. -/
theorem calculate_optimal_scale_bounds (w h : ℕ) (text_height_pt : ℚ)
    (question_id : String) (hh : 0 < h) :
    3 / 10 ≤ calculate_optimal_scale (some (w, h)) text_height_pt question_id ∧
    calculate_optimal_scale (some (w, h)) text_height_pt question_id ≤ 19 / 20 := by
  unfold calculate_optimal_scale
  dsimp only
  exact pyRound2_bounds _ (le_max_left _ _)
    (max_le (by norm_num) ((min_le_left _ _).trans (by norm_num)))

/-- Witness for C6 at a 10:1 synthetic image. -/
theorem calculate_optimal_scale_bounds_witness :
    3 / 10 ≤ calculate_optimal_scale (some (1000, 100)) 100 "20051013" ∧
    calculate_optimal_scale (some (1000, 100)) 100 "20051013" ≤ 19 / 20 :=
  calculate_optimal_scale_bounds 1000 100 100 "20051013" (by norm_num)

/-! ### Claim C9 — only options A through E are rendered and counted -/

/-- The options-block fold depends on the options only through the
lookups of the visited keys. -/
theorem options_block_foldl_congr (keys : List String)
    (o1 o2 : List (String × String))
    (h : ∀ k ∈ keys, List.lookup k o1 = List.lookup k o2) :
    ∀ acc : List String,
      keys.foldl (options_block_step o1) acc = keys.foldl (options_block_step o2) acc := by
  induction keys with
  | nil => intro acc; rfl
  | cons key rest ih =>
    intro acc
    simp only [List.foldl_cons, options_block_step, h key (List.mem_cons_self key rest)]
    exact ih (fun k hk => h k (List.mem_cons_of_mem _ hk)) _

/-- The option-line-count fold depends on the options only through the
lookups of the visited keys. -/
theorem estimate_foldl_congr (keys : List String) (o1 o2 : List (String × String))
    (h : ∀ k ∈ keys, List.lookup k o1 = List.lookup k o2) :
    ∀ acc : ℕ,
      keys.foldl (estimate_option_step o1) acc = keys.foldl (estimate_option_step o2) acc := by
  induction keys with
  | nil => intro acc; rfl
  | cons key rest ih =>
    intro acc
    simp only [List.foldl_cons, estimate_option_step, h key (List.mem_cons_self key rest)]
    exact ih (fun k hk => h k (List.mem_cons_of_mem _ hk)) _

/-- The options-block fold is the `filterMap` of the lookups over the
key list. -/
theorem options_block_foldl_filterMap (keys : List String) (o : List (String × String)) :
    ∀ acc : List String,
      keys.foldl (options_block_step o) acc =
        acc ++ keys.filterMap (fun k => (List.lookup k o).map (option_item_line k)) := by
  induction keys with
  | nil => intro acc; simp
  | cons key rest ih =>
    intro acc
    simp only [List.foldl_cons, List.filterMap_cons, options_block_step]
    cases hk : List.lookup key o with
    | none => simpa using ih acc
    | some t =>
      simp only [Option.map_some']
      rw [ih (acc ++ [option_item_line key t])]
      simp

/-- Lookups of the labels A through E ignore a prepended `F` binding. -/
theorem lookup_item_keys_skip_F {β : Type} (t : β) (options : List (String × β)) :
    ∀ k ∈ option_item_keys, List.lookup k (("F", t) :: options) = List.lookup k options := by
  intro k hk
  have hne : ∀ k' ∈ option_item_keys, (k' == "F") = false := by decide
  simp [List.lookup, hne k hk]

/-- Claim C9: the options block emitted by `create_latex_document`
renders exactly the options of the record with keys among `A`–`E`, in that
key order; an option keyed `F` is never rendered; and
`estimate_text_height` likewise counts only the keys `A` through `E`,
so an `F` option contributes nothing to the estimate. -/
theorem options_block_and_estimate_only_A_to_E (q : QuestionData) (t : String)
    (has_answer : Bool) :
    options_block q.options =
      ["\\textbf\x7bOptions:\x7d", "\\begin\x7benumerate\x7d"] ++
        option_item_keys.filterMap (fun k =>
          (List.lookup k q.options).map (option_item_line k)) ++
        ["\\end\x7benumerate\x7d"] ∧
    options_block (("F", t) :: q.options) = options_block q.options ∧
    estimate_text_height ⟨q.question, ("F", t) :: q.options, q.answer⟩ has_answer =
      estimate_text_height q has_answer := by
  refine ⟨?_, ?_, ?_⟩
  · unfold options_block
    rw [options_block_foldl_filterMap option_item_keys q.options []]
    simp
  · unfold options_block
    rw [options_block_foldl_congr option_item_keys (("F", t) :: q.options) q.options
      (lookup_item_keys_skip_F t q.options)]
  · unfold estimate_text_height
    dsimp only
    rw [estimate_foldl_congr option_item_keys (("F", t) :: q.options) q.options
      (lookup_item_keys_skip_F t q.options)]

end NEJM
